import Mathlib

/-!
Verification of the caen_felib device-binding layer (device.py).

The development shallow-embeds the data model and operations of
src/caen_felib/device.py: the Data buffer descriptor with its validation
and 2-D proxy pointer array, the Node tree with navigation and child
generation, the retry-on-resize loops of get_child_nodes and
get_device_tree, the set_read_data_format / read_data pipeline, and the
memoization layer.

Memory is modelled with a deterministic bump allocator: each allocation
obtains a fresh base address and advances by at least one byte (numpy
allocates at least one byte even for empty arrays), so distinct
allocations have distinct base addresses.  The native library is an
external collaborator and is passed in as an explicit function (a stub),
exactly as the spec treats the FFI boundary.
-/

/-- Embedding of the module-level dict _DATA_TYPE_MAP of device.py: the
recognized element type tags, each paired with its ctypes item size in
bytes on a 64-bit platform.  A tag is valid exactly when lookup
succeeds, mirroring dict.get returning non-None. -/
def _DATA_TYPE_MAP : List (String × Nat) :=
  [("U8", 1), ("U16", 2), ("U32", 4), ("U64", 8),
   ("I8", 1), ("I16", 2), ("I32", 4), ("I64", 8),
   ("CHAR", 1), ("BOOL", 1), ("SIZE_T", 8), ("PTRDIFF_T", 8),
   ("FLOAT", 4), ("DOUBLE", 8), ("LONG DOUBLE", 16)]

/-- Embedding of the Data dataclass of device.py after __post_init__ has
run: the declared field metadata together with the addresses of the
allocated storage.  bufAddr and bufLen describe the numpy buffer
self.__value; proxyRows and proxyAddr describe the
self.__proxy_value_2d array of row pointers (present only for dim = 2);
argAddr is the raw address exposed by the arg property. -/
structure Data where
  name : String
  type : String
  dim : Int
  shape : List Nat
  itemsize : Nat
  bufAddr : Nat
  bufLen : Nat
  proxyRows : Option (List Nat)
  proxyAddr : Option Nat
  argAddr : Nat
deriving Repr, DecidableEq

/-- Addresses of the rows of a 2-D numpy array of shape [r, c] with the
given element size, laid out contiguously from bufAddr: this is the
sequence produced by the generator (v.ctypes.data for v in self.value)
in Data.__generate_arg. -/
def rowAddrs (bufAddr c esize r : Nat) : List Nat :=
  (List.range r).map (fun i => bufAddr + i * c * esize)

/-- Embedding of Data construction (Data.__init__ plus __post_init__ and
__generate_arg): validation in source order (dim > 2, then shape length,
then type tag), then allocation of the buffer at the allocator cursor
base, and for dim = 2 allocation of the proxy array of row pointers
right after it.  Returns the constructed descriptor together with the
advanced allocator cursor; errors model the ValueError raises. -/
def Data.make (name ty : String) (dim : Int) (shape : List Nat) (base : Nat) :
    Except String (Data × Nat) :=
  if 2 < dim then
    .error "dim cannot be larger than 2"
  else if dim ≠ (shape.length : Int) then
    .error "shape length must match dim"
  else
    match _DATA_TYPE_MAP.lookup ty with
    | none => .error "Invalid data type"
    | some esize =>
      let len := shape.prod
      let afterBuf := base + max (len * esize) 1
      if dim < 2 then
        .ok ({ name := name, type := ty, dim := dim, shape := shape,
               itemsize := esize, bufAddr := base, bufLen := len,
               proxyRows := none, proxyAddr := none, argAddr := base },
             afterBuf)
      else
        let r := shape.headD 0
        let c := (shape.drop 1).headD 0
        let rows := rowAddrs base c esize r
        .ok ({ name := name, type := ty, dim := dim, shape := shape,
               itemsize := esize, bufAddr := base, bufLen := len,
               proxyRows := some rows, proxyAddr := some afterBuf,
               argAddr := afterBuf },
             afterBuf + max (r * 8) 1)

/-- Embedding of the Node dataclass of device.py: a handle issued by the
native layer and an optional back-reference to the root node of the
tree (None exactly on a root node). -/
inductive Node where
  | mk (handle : Nat) (rootNode : Option Node)
deriving Repr

/-- Accessor for the handle field of a Node. -/
def Node.handle : Node → Nat
  | .mk h _ => h

/-- Accessor for the root_node field of a Node. -/
def Node.rootNode : Node → Option Node
  | .mk _ r => r

/-- Embedding of Node.__post_init__: the private flag self.__opened is
initialized to (self.root_node is None), so only a node constructed
with root_node None starts out marked opened. -/
def Node.openedAtInit (n : Node) : Bool :=
  n.rootNode.isNone

/-- Embedding of Node.__del__ at construction state: the destructor
invokes the native close exactly when the opened flag is set. -/
def Node.delCloses (n : Node) : Bool :=
  n.openedAtInit

/-- Well-formedness of the root back-reference: a node is either a root
(root_node is None, as built by Node.open) or points directly at a root
node.  Every node the binding ever builds satisfies this. -/
def Node.wf (n : Node) : Prop :=
  n.rootNode = none ∨ ∃ r, n.rootNode = some r ∧ r.rootNode = none

/-- Embedding of Node.__generate_child: the child carries as its
root_node self itself when self is a root, and otherwise self's own
root_node, so the back-reference is never chained through an
intermediate node. -/
def Node.generateChild (self : Node) (handle : Nat) : Node :=
  let root := match self.rootNode with
    | none => self
    | some r => r
  Node.mk handle (some root)

/-- Embedding of the retry-on-resize loop of Node.get_child_nodes.  The
native layer lib.get_child_handles is the explicit collaborator
native : path, capacity to (returned status res, buffer contents); the
loop allocates a buffer of the current size, calls the native layer,
succeeds when res fits into the capacity (taking the first res handles
and wrapping each with __generate_child, in buffer order) and otherwise
retries with the buffer reallocated to exactly res.  The result pairs
the child list with the trace of capacities passed to the native layer,
one entry per native call, in call order; fuel bounds the unbounded
while loop and none means fuel ran out. -/
def getChildNodesR (native : Option String → Nat → Nat × List Nat) (self : Node)
    (path : Option String) : Nat → Nat → Option (List Node × List Nat)
  | 0, _ => none
  | fuel + 1, size =>
    let res := (native path size).1
    let handles := (native path size).2
    if res ≤ size then
      some (((handles.take res).map self.generateChild), [size])
    else
      (getChildNodesR native self path fuel res).map (fun p => (p.1, size :: p.2))

/-- Default value 2^6 of the initial_size parameter of
Node.get_child_nodes. -/
def initialChildSize : Nat := 2 ^ 6

/-- Stub native layer for the resize scenario: it holds N child handles
hs; a call with sufficient capacity reports N and fills the buffer with
them, while a call with insufficient capacity reports a required size
twice the supplied capacity. -/
def stubDouble (N : Nat) (hs : List Nat) : Option String → Nat → Nat × List Nat :=
  fun _ cap => if N ≤ cap then (N, hs) else (2 * cap, [])

/-- Embedding of the retry-on-resize loop of Node.get_device_tree.  The
native layer lib.get_device_tree is the explicit collaborator
native : call index, capacity to (returned size res, document written);
the loop allocates a string buffer of the current size, calls the
native layer, returns the parsed document only when res is strictly
below the capacity (the source comments that equal is not fine) and
otherwise retries with the buffer reallocated to res.  The result pairs
the document with the trace of capacities passed to the native layer;
fuel bounds the while loop. -/
def getDeviceTreeR (native : Nat → Nat → Nat × String) :
    Nat → Nat → Nat → Option (String × List Nat)
  | 0, _, _ => none
  | fuel + 1, idx, size =>
    let res := (native idx size).1
    if res < size then
      some ((native idx size).2, [size])
    else
      (getDeviceTreeR native fuel (idx + 1) res).map (fun p => (p.1, size :: p.2))

/-- Stub native layer for the device-tree scenario: the first call
reports a size equal to the supplied capacity, every later call reports
one byte below the capacity and writes the document. -/
def stubEqOnce : Nat → Nat → Nat × String :=
  fun idx cap => if idx = 0 then (cap, "") else (cap - 1, "ok")

/-- Embedding of one field description of the format argument of
Node.set_read_data_format: the mapping with keys name, type, dim and
shape that is splatted into the Data constructor. -/
structure FmtField where
  fname : String
  ftype : String
  fdim : Int
  fshape : List Nat
deriving Repr, DecidableEq

/-- Validity of a field description: exactly the conjunction of the
checks of Data.__post_init__ succeeding. -/
def fieldValid (f : FmtField) : Prop :=
  f.fdim ≤ 2 ∧ f.fdim = (f.fshape.length : Int) ∧ (_DATA_TYPE_MAP.lookup f.ftype).isSome

/-- Malformedness of a field description: some check of
Data.__post_init__ raises. -/
def fieldInvalid (f : FmtField) : Prop :=
  2 < f.fdim ∨ f.fdim ≠ (f.fshape.length : Int) ∨ _DATA_TYPE_MAP.lookup f.ftype = none

instance (f : FmtField) : Decidable (fieldValid f) := by
  unfold fieldValid; infer_instance

instance (f : FmtField) : Decidable (fieldInvalid f) := by
  unfold fieldInvalid; infer_instance

/-- Embedding of the generator tuple(Data(**f) for f in fmt) at the end
of Node.set_read_data_format: construct one Data per field in declared
order, threading the allocator cursor; the first field whose
construction raises aborts the whole tuple with that error. -/
def allocDataList : List FmtField → Nat → Except String (List Data × Nat)
  | [], base => .ok ([], base)
  | f :: fs, base =>
    match Data.make f.fname f.ftype f.fdim f.fshape base with
    | .error e => .error e
    | .ok (d, base2) =>
      match allocDataList fs base2 with
      | .error e => .error e
      | .ok (ds, base3) => .ok (d :: ds, base3)

/-- Outcome of Node.set_read_data_format: nativeFmt records the format
handed to lib.set_read_data_format (the native call happens first,
unconditionally), and result is what the method then returns or
raises. -/
structure SrdfOutcome where
  nativeHandle : Nat
  nativeFmt : List FmtField
  result : Except String (List Data)
deriving Repr

/-- Embedding of Node.set_read_data_format: it first invokes the native
set-read-data-format entry point with the serialized format, then
allocates the requested fields; a malformed field raises only after the
native call already happened. -/
def Node.setReadDataFormat (self : Node) (fmt : List FmtField) (base : Nat) : SrdfOutcome :=
  { nativeHandle := self.handle,
    nativeFmt := fmt,
    result :=
      match allocDataList fmt base with
      | .error e => .error e
      | .ok (ds, _) => .ok ds }

/-- Record of one invocation of the native lib.read_data entry point:
the positional arguments it receives. -/
structure ReadCall where
  handle : Nat
  timeout : Int
  args : List Nat
deriving Repr, DecidableEq

/-- Embedding of Node.read_data: it calls lib.read_data with the node
handle, the timeout, and the arg raw address of each descriptor of
data, in sequence order, one trailing argument per descriptor. -/
def Node.readData (self : Node) (timeout : Int) (data : List Data) : ReadCall :=
  { handle := self.handle, timeout := timeout, args := data.map Data.argAddr }

/-- Pointwise correspondence between a constructed descriptor and the
field description it was built from. -/
def dataMatchesField (d : Data) (f : FmtField) : Prop :=
  d.name = f.fname ∧ d.type = f.ftype ∧ d.dim = f.fdim ∧ d.shape = f.fshape

/-- Modelled from the spec: the _cache.Manager process-wide memoization
used by device.py through the _cache.cached decorator (the _cache
module itself is not part of the given sources).  A cache state is a
list of key-value entries plus a count of underlying native
computations performed on misses. -/
structure CacheState (κ α : Type) where
  entries : List (κ × α)
  nativeCalls : Nat
deriving Repr

/-- Lookup of a key in the entry list of a cache state. -/
def lookupEntry {κ α : Type} [DecidableEq κ] (k : κ) : List (κ × α) → Option α
  | [] => none
  | (k2, v) :: rest => if k2 = k then some v else lookupEntry k rest

/-- Modelled from the spec: a call through the _cache.cached decorator.
On a hit the stored value is returned and the state is untouched; on a
miss the underlying computation runs (one native round trip) and the
result is stored under the key. -/
def cachedCall {κ α : Type} [DecidableEq κ] (compute : Unit → α) (k : κ)
    (st : CacheState κ α) : α × CacheState κ α :=
  match lookupEntry k st.entries with
  | some v => (v, st)
  | none =>
    let v := compute ()
    (v, { entries := (k, v) :: st.entries, nativeCalls := st.nativeCalls + 1 })

/-- Cache keys of the memoized Node methods: the identity of the owning
node, the method name, and the path argument. -/
abbrev NodeCacheKey := Nat × String × Option String

/-- Embedding of the memoized Node.get_child_nodes: the retry-on-resize
loop wrapped by the _cache.cached decorator, keyed by the node, the
method and the path argument. -/
def getChildNodesCached (native : Option String → Nat → Nat × List Nat) (fuel : Nat)
    (self : Node) (path : Option String)
    (st : CacheState NodeCacheKey (Option (List Node × List Nat))) :
    Option (List Node × List Nat) × CacheState NodeCacheKey (Option (List Node × List Nat)) :=
  cachedCall (fun _ => getChildNodesR native self path fuel initialChildSize)
    (self.handle, "get_child_nodes", path) st

/-- Embedding of Node.get_node with the native handle resolution
lib.get_handle as explicit collaborator resolve: the resolved handle is
wrapped with __generate_child. -/
def Node.getNodeVia (resolve : Nat → Option String → Nat) (self : Node)
    (path : Option String) : Node :=
  self.generateChild (resolve self.handle path)

/-- Embedding of Node.__getitem__: self.get_node with the index
formatted as the path /index. -/
def Node.getItem (resolve : Nat → Option String → Nat) (self : Node)
    (index : String) : Node :=
  self.getNodeVia resolve (some ("/" ++ index))

/-- Test performed by Node.__getattr__ on the accessed name: dunder
names (name.startswith and name.endswith both with the double
underscore, here expressed on the character list) raise AttributeError
instead of navigating. -/
def isDunder (s : String) : Bool :=
  List.isPrefixOf "__".toList s.toList &&
    List.isPrefixOf "__".toList.reverse s.toList.reverse

/-- Embedding of Node.__getattr__: dunder names raise AttributeError
(none); every other name is delegated to __getitem__. -/
def Node.getAttrSugar (resolve : Nat → Option String → Nat) (self : Node)
    (name : String) : Option Node :=
  if isDunder name then none else some (self.getItem resolve name)

/-- Embedding of the Node.child_nodes property: get_child_nodes with
path None, via the retry loop with the default initial size (the node
list component of the loop result). -/
def Node.childNodesProp (native : Option String → Nat → Nat × List Nat) (fuel : Nat)
    (self : Node) : Option (List Node) :=
  (getChildNodesR native self none fuel initialChildSize).map (fun p => p.1)

/-- Embedding of Node.__iter__: it yields from self.child_nodes, so the
iterated sequence is exactly the child_nodes tuple. -/
def Node.iterNodes (native : Option String → Nat → Nat × List Nat) (fuel : Nat)
    (self : Node) : Option (List Node) :=
  self.childNodesProp native fuel

/-- Length of the row-address list: one entry per outer-dimension row. -/
theorem rowAddrs_length (b c e r : Nat) : (rowAddrs b c e r).length = r := by
  simp [rowAddrs]

/-- Entry i of the row-address list is the address of row i of the
contiguous buffer. -/
theorem rowAddrs_getD (b c e r i : Nat) (hi : i < r) :
    (rowAddrs b c e r).getD i 0 = b + i * c * e := by
  simp [rowAddrs, List.getD, List.getElem?_map, List.getElem?_range, hi]

/-- Construction succeeds on every field description passing all three
checks of Data.__post_init__, and the resulting descriptor keeps the
declared metadata, sits at the allocator cursor and holds prod shape
elements. -/
theorem make_ok_of_valid (name ty : String) (dim : Int) (shape : List Nat)
    (base esize : Nat) (hdim : dim ≤ 2) (hlen : dim = (shape.length : Int))
    (hty : _DATA_TYPE_MAP.lookup ty = some esize) :
    ∃ d base2, Data.make name ty dim shape base = .ok (d, base2) ∧
      d.name = name ∧ d.type = ty ∧ d.dim = dim ∧ d.shape = shape ∧
      d.bufLen = shape.prod ∧ d.bufAddr = base := by
  unfold Data.make
  rw [if_neg (by omega), if_neg (by simp [hlen]), hty]
  dsimp only
  by_cases h2 : dim < 2
  · rw [if_pos h2]
    exact ⟨_, _, rfl, rfl, rfl, rfl, rfl, rfl, rfl⟩
  · rw [if_neg h2]
    exact ⟨_, _, rfl, rfl, rfl, rfl, rfl, rfl, rfl⟩

/-- Construction fails on every field description failing some check of
Data.__post_init__. -/
theorem make_error_of_invalid (name ty : String) (dim : Int) (shape : List Nat)
    (base : Nat)
    (h : 2 < dim ∨ dim ≠ (shape.length : Int) ∨ _DATA_TYPE_MAP.lookup ty = none) :
    ∃ e, Data.make name ty dim shape base = .error e := by
  unfold Data.make
  by_cases h1 : 2 < dim
  · rw [if_pos h1]
    exact ⟨_, rfl⟩
  · rw [if_neg h1]
    by_cases hl : dim ≠ (shape.length : Int)
    · rw [if_pos hl]
      exact ⟨_, rfl⟩
    · rw [if_neg hl]
      have hn : _DATA_TYPE_MAP.lookup ty = none := by tauto
      rw [hn]
      exact ⟨_, rfl⟩

/-- A format list of valid fields allocates one descriptor per field,
in declared order, each matching its field description. -/
theorem allocDataList_ok (fmt : List FmtField) (base : Nat)
    (h : ∀ f ∈ fmt, fieldValid f) :
    ∃ ds base2, allocDataList fmt base = .ok (ds, base2) ∧
      List.Forall₂ dataMatchesField ds fmt := by
  induction fmt generalizing base with
  | nil => exact ⟨[], base, rfl, List.Forall₂.nil⟩
  | cons f fs ih =>
    have hf : fieldValid f := h f (List.mem_cons_self f fs)
    obtain ⟨hdim, hlen, hsome⟩ := hf
    obtain ⟨esize, he⟩ := Option.isSome_iff_exists.mp hsome
    obtain ⟨d, b2, hmk, hn, ht, hd, hs, _, _⟩ :=
      make_ok_of_valid f.fname f.ftype f.fdim f.fshape base esize hdim hlen he
    obtain ⟨ds, b3, hds, hmat⟩ := ih b2 (fun g hg => h g (List.mem_cons_of_mem f hg))
    refine ⟨d :: ds, b3, ?_, List.Forall₂.cons ⟨hn, ht, hd, hs⟩ hmat⟩
    unfold allocDataList
    rw [hmk]
    dsimp only
    rw [hds]

/-- A format list containing a malformed field makes the descriptor
allocation fail as a whole. -/
theorem allocDataList_error (fmt : List FmtField) (base : Nat)
    (h : ∃ f ∈ fmt, fieldInvalid f) :
    ∃ e, allocDataList fmt base = .error e := by
  induction fmt generalizing base with
  | nil => simp at h
  | cons f fs ih =>
    by_cases hf : fieldInvalid f
    · obtain ⟨e, he⟩ := make_error_of_invalid f.fname f.ftype f.fdim f.fshape base hf
      refine ⟨e, ?_⟩
      unfold allocDataList
      rw [he]
    · have hvalid : fieldValid f := by
        unfold fieldInvalid at hf
        push_neg at hf
        obtain ⟨h1, h2, h3⟩ := hf
        refine ⟨by omega, h2, ?_⟩
        cases hx : _DATA_TYPE_MAP.lookup f.ftype with
        | none => exact absurd hx h3
        | some v => rfl
      obtain ⟨hdim, hlen, hsome⟩ := hvalid
      obtain ⟨esize, he⟩ := Option.isSome_iff_exists.mp hsome
      obtain ⟨d, b2, hmk, _, _, _, _, _, _⟩ :=
        make_ok_of_valid f.fname f.ftype f.fdim f.fshape base esize hdim hlen he
      have htail : ∃ g ∈ fs, fieldInvalid g := by
        obtain ⟨g, hg, hbad⟩ := h
        rcases List.mem_cons.mp hg with rfl | hmem
        · exact absurd hbad hf
        · exact ⟨g, hmem, hbad⟩
      obtain ⟨e, he2⟩ := ih b2 htail
      refine ⟨e, ?_⟩
      unfold allocDataList
      rw [hmk]
      dsimp only
      rw [he2]

/-- Every node in a get_child_nodes result is a __generate_child image
of the queried node. -/
theorem getChildNodesR_mem (native : Option String → Nat → Nat × List Nat)
    (self : Node) (path : Option String) :
    ∀ fuel size res, getChildNodesR native self path fuel size = some res →
      ∀ c ∈ res.1, ∃ h, c = self.generateChild h := by
  intro fuel
  induction fuel with
  | zero => intro size res hr; simp [getChildNodesR] at hr
  | succ fuel ih =>
    intro size res hr c hc
    unfold getChildNodesR at hr
    by_cases hfit : (native path size).1 ≤ size
    · rw [if_pos hfit] at hr
      obtain rfl := Option.some_injective _ hr.symm
      obtain ⟨h, _, rfl⟩ := List.mem_map.mp hc
      exact ⟨h, rfl⟩
    · rw [if_neg hfit] at hr
      cases hrec : getChildNodesR native self path fuel (native path size).1 with
      | none => rw [hrec] at hr; simp at hr
      | some p =>
        rw [hrec] at hr
        replace hr : some (p.1, size :: p.2) = some res := hr
        obtain rfl := Option.some_injective _ hr.symm
        exact ih _ p hrec c hc

/-- A successful get_device_tree run makes at least one native call:
its capacity trace is nonempty. -/
theorem getDeviceTreeR_trace_ne_nil (native : Nat → Nat → Nat × String) :
    ∀ fuel idx size p, getDeviceTreeR native fuel idx size = some p → p.2 ≠ [] := by
  intro fuel
  induction fuel with
  | zero => intro idx size p hp; simp [getDeviceTreeR] at hp
  | succ fuel ih =>
    intro idx size p hp
    unfold getDeviceTreeR at hp
    by_cases hlt : (native idx size).1 < size
    · rw [if_pos hlt] at hp
      obtain rfl := Option.some_injective _ hp.symm
      simp
    · rw [if_neg hlt] at hp
      cases hrec : getDeviceTreeR native fuel (idx + 1) (native idx size).1 with
      | none => rw [hrec] at hp; simp at hp
      | some q =>
        rw [hrec] at hp
        replace hp : some (q.1, size :: q.2) = some p := hp
        obtain rfl := Option.some_injective _ hp.symm
        simp

/-- Calling through the cache twice with the same key is idempotent:
the second call returns the stored value and leaves the state (hence
the native call count) untouched. -/
theorem cachedCall_idem {κ α : Type} [DecidableEq κ] (compute : Unit → α) (k : κ)
    (st : CacheState κ α) :
    cachedCall compute k ((cachedCall compute k st).2) = cachedCall compute k st := by
  cases hl : lookupEntry k st.entries with
  | some v =>
    have h1 : cachedCall compute k st = (v, st) := by
      unfold cachedCall
      rw [hl]
    rw [h1]
    exact h1
  | none =>
    have h1 : cachedCall compute k st =
        (compute (), { entries := (k, compute ()) :: st.entries,
                       nativeCalls := st.nativeCalls + 1 }) := by
      unfold cachedCall
      rw [hl]
    rw [h1]
    unfold cachedCall
    simp [lookupEntry]

/-- A child produced by __generate_child of a well-formed node points
directly at a root node. -/
theorem generateChild_root (self : Node) (h : Nat) (hwf : self.wf) :
    ∃ r, (self.generateChild h).rootNode = some r ∧ r.rootNode = none := by
  cases self with
  | mk h0 r0 =>
    rcases hwf with hroot | ⟨r, hr, hr0⟩
    · have h00 : r0 = none := hroot
      subst h00
      exact ⟨Node.mk h0 none, rfl, rfl⟩
    · have h00 : r0 = some r := hr
      subst h00
      exact ⟨r, rfl, hr0⟩

/-- C1: for every Data descriptor constructed with dim = 2 and
shape = [r, c], the raw address exposed via its arg property is the
address of a separately owned array of exactly r pointers, the i-th
pointer equals the address of row i of the owned buffer, and this
exposed address differs from the address of the underlying contiguous
buffer itself. -/
theorem c1_rank2_arg_is_proxy_array (name ty : String) (r c base esize : Nat)
    (hty : _DATA_TYPE_MAP.lookup ty = some esize) :
    ∃ d base2 rows, Data.make name ty 2 [r, c] base = .ok (d, base2) ∧
      d.proxyRows = some rows ∧
      d.proxyAddr = some d.argAddr ∧
      d.argAddr ≠ d.bufAddr ∧
      rows.length = r ∧
      (∀ i, i < r → rows.getD i 0 = d.bufAddr + i * c * esize) := by
  unfold Data.make
  rw [if_neg (by norm_num), if_neg (by simp), hty]
  dsimp only
  rw [if_neg (by norm_num)]
  refine ⟨_, _, rowAddrs base c esize r, rfl, rfl, rfl, ?_, ?_, ?_⟩
  · show base + max (List.prod [r, c] * esize) 1 ≠ base
    have h1 := Nat.le_max_right (List.prod [r, c] * esize) 1
    omega
  · exact rowAddrs_length base c esize r
  · intro i hi
    exact rowAddrs_getD base c esize r i hi

/-- C1 witness: a concrete rank-2 U16 descriptor of shape [2, 3]. -/
theorem c1_rank2_arg_is_proxy_array_witness :
    _DATA_TYPE_MAP.lookup "U16" = some 2 ∧
    (∃ d base2 rows, Data.make "w" "U16" 2 [2, 3] 100 = .ok (d, base2) ∧
      d.proxyRows = some rows ∧
      d.proxyAddr = some d.argAddr ∧
      d.argAddr ≠ d.bufAddr ∧
      rows.length = 2 ∧
      (∀ i, i < 2 → rows.getD i 0 = d.bufAddr + i * 3 * 2)) :=
  ⟨by decide, c1_rank2_arg_is_proxy_array "w" "U16" 2 3 100 2 (by decide)⟩

/-- C2: constructing a Data descriptor fails with a validation error
for every field description whose dim differs from the length of its
shape, or whose dim exceeds 2, or whose element type tag is not in
_DATA_TYPE_MAP; no such field yields a constructed descriptor. -/
theorem c2_validation_rejects_malformed (name ty : String) (dim : Int)
    (shape : List Nat) (base : Nat)
    (h : dim ≠ (shape.length : Int) ∨ 2 < dim ∨ _DATA_TYPE_MAP.lookup ty = none) :
    ∃ e, Data.make name ty dim shape base = .error e :=
  make_error_of_invalid name ty dim shape base (by tauto)

/-- C2 witness: dim = 3 with an empty shape is rejected. -/
theorem c2_validation_rejects_malformed_witness :
    ((3 : Int) ≠ ((([] : List Nat)).length : Int) ∨ 2 < (3 : Int) ∨
      _DATA_TYPE_MAP.lookup "U8" = none) ∧
    ∃ e, Data.make "x" "U8" 3 [] 0 = .error e :=
  ⟨Or.inl (by norm_num),
   c2_validation_rejects_malformed "x" "U8" 3 [] 0 (Or.inl (by norm_num))⟩

/-- C3: for every (dim, shape) with dim in 0, 1, 2, shape length equal
to dim and a recognized element type tag, construction succeeds and the
owned buffer holds exactly prod shape elements (1 element when
dim = 0). -/
theorem c3_valid_construction_buffer_size (name ty : String) (dim : Int)
    (shape : List Nat) (base : Nat)
    (hdim : dim = 0 ∨ dim = 1 ∨ dim = 2) (hlen : dim = (shape.length : Int))
    (hty : (_DATA_TYPE_MAP.lookup ty).isSome) :
    ∃ d base2, Data.make name ty dim shape base = .ok (d, base2) ∧
      d.bufLen = shape.prod ∧ (dim = 0 → d.bufLen = 1) := by
  obtain ⟨esize, he⟩ := Option.isSome_iff_exists.mp hty
  obtain ⟨d, b2, hmk, _, _, _, _, hbuf, _⟩ :=
    make_ok_of_valid name ty dim shape base esize (by omega) hlen he
  refine ⟨d, b2, hmk, hbuf, ?_⟩
  intro h0
  rw [h0] at hlen
  have hz : shape.length = 0 := by exact_mod_cast hlen.symm
  have hnil : shape = [] := List.length_eq_zero.mp hz
  rw [hnil] at hbuf
  simpa using hbuf

/-- C3 witness: a concrete rank-1 DOUBLE descriptor of shape [5]. -/
theorem c3_valid_construction_buffer_size_witness :
    ((1 : Int) = 0 ∨ (1 : Int) = 1 ∨ (1 : Int) = 2) ∧
    (1 : Int) = ((([5] : List Nat)).length : Int) ∧
    (_DATA_TYPE_MAP.lookup "DOUBLE").isSome = true ∧
    (∃ d base2, Data.make "e" "DOUBLE" 1 [5] 0 = .ok (d, base2) ∧
      d.bufLen = ([5] : List Nat).prod ∧ ((1 : Int) = 0 → d.bufLen = 1)) :=
  ⟨Or.inr (Or.inl rfl), by norm_num, by decide,
   c3_valid_construction_buffer_size "e" "DOUBLE" 1 [5] 0
     (Or.inr (Or.inl rfl)) (by norm_num) (by decide)⟩

/-- C4: get_child_nodes implements the retry-on-resize protocol: under
a stub reporting a required size twice the supplied capacity and
fitting on the second call, the loop makes exactly two native calls
(capacity trace [cap, 2 * cap]), the second call capacity 2 * cap is at
least the size reported by the first call, and the result is one child
node per reported handle, in the native order. -/
theorem c4_retry_on_resize_two_calls (cap N : Nat) (hs : List Nat) (self : Node)
    (path : Option String) (fuel : Nat)
    (hc : 0 < cap) (h1 : cap < N) (h2 : N ≤ 2 * cap) (hlen : hs.length = N) :
    getChildNodesR (stubDouble N hs) self path (fuel + 2) cap =
      some (hs.map self.generateChild, [cap, 2 * cap]) ∧
    (stubDouble N hs path cap).1 = 2 * cap ∧
    (stubDouble N hs path cap).1 ≤ 2 * cap := by
  have hN : ¬ N ≤ cap := by omega
  have hfst : stubDouble N hs path cap = (2 * cap, []) := by
    unfold stubDouble
    rw [if_neg hN]
  have hfst2 : stubDouble N hs path (2 * cap) = (N, hs) := by
    unfold stubDouble
    rw [if_pos h2]
  refine ⟨?_, by rw [hfst], by rw [hfst]⟩
  have hstep1 : getChildNodesR (stubDouble N hs) self path (fuel + 2) cap =
      (getChildNodesR (stubDouble N hs) self path (fuel + 1) (2 * cap)).map
        (fun p => (p.1, cap :: p.2)) := by
    show (if (stubDouble N hs path cap).1 ≤ cap then
        some ((((stubDouble N hs path cap).2).take ((stubDouble N hs path cap).1)).map
          self.generateChild, [cap])
      else
        (getChildNodesR (stubDouble N hs) self path (fuel + 1)
          ((stubDouble N hs path cap).1)).map (fun p => (p.1, cap :: p.2))) = _
    rw [hfst]
    dsimp only
    rw [if_neg (by omega)]
  have hstep2 : getChildNodesR (stubDouble N hs) self path (fuel + 1) (2 * cap) =
      some ((hs.take N).map self.generateChild, [2 * cap]) := by
    show (if (stubDouble N hs path (2 * cap)).1 ≤ 2 * cap then
        some ((((stubDouble N hs path (2 * cap)).2).take
          ((stubDouble N hs path (2 * cap)).1)).map self.generateChild, [2 * cap])
      else
        (getChildNodesR (stubDouble N hs) self path fuel
          ((stubDouble N hs path (2 * cap)).1)).map
          (fun p => (p.1, 2 * cap :: p.2))) = _
    rw [hfst2]
    dsimp only
    rw [if_pos h2]
  rw [hstep1, hstep2]
  rw [← hlen, List.take_length]
  rfl

/-- C4 witness: capacity 2, three children, handles 10, 11, 12. -/
theorem c4_retry_on_resize_two_calls_witness :
    0 < 2 ∧ 2 < 3 ∧ 3 ≤ 2 * 2 ∧ ([10, 11, 12] : List Nat).length = 3 ∧
    getChildNodesR (stubDouble 3 [10, 11, 12]) (Node.mk 1 none) none (0 + 2) 2 =
      some (([10, 11, 12] : List Nat).map (Node.mk 1 none).generateChild, [2, 2 * 2]) :=
  ⟨by norm_num, by norm_num, by norm_num, by decide,
   (c4_retry_on_resize_two_calls 2 3 [10, 11, 12] (Node.mk 1 none) none 0
     (by norm_num) (by norm_num) (by norm_num) (by decide)).1⟩

/-- C5 counterexample: under the stub whose first call reports a size
equal to the capacity 4, the loop retries with capacity 4 again (trace
[4, 4]): the retry buffer is reallocated to the reported size, which
equals the previous capacity, so the retry does not use a strictly
larger buffer as the claim states. -/
theorem c5_counterexample_same_capacity_retry :
    getDeviceTreeR stubEqOnce 5 0 4 = some ("ok", [4, 4]) ∧
    ¬ List.Chain' (fun a b : Nat => a < b) [4, 4] := by
  constructor
  · rfl
  · simp [List.chain'_cons]

/-- C5 (amended): get_device_tree succeeds on a call exactly when the
returned size is strictly less than the supplied capacity (the
document is returned from that call); a returned size equal to the
capacity is a must-retry condition with the buffer reallocated to the
reported size (the same capacity in the equal case), so a stub whose
reported size equals the capacity once and then fits triggers exactly
one retry, while a reported size strictly below capacity succeeds on
the first call. -/
theorem c5_device_tree_success_iff (native : Nat → Nat → Nat × String)
    (fuel idx size : Nat) (doc : String) :
    ((native idx size).1 < size →
      getDeviceTreeR native (fuel + 1) idx size = some ((native idx size).2, [size])) ∧
    (getDeviceTreeR native (fuel + 1) idx size = some (doc, [size]) →
      (native idx size).1 < size) ∧
    ((native idx size).1 = size → (native (idx + 1) size).1 < size →
      getDeviceTreeR native (fuel + 2) idx size =
        some ((native (idx + 1) size).2, [size, size])) := by
  refine ⟨?_, ?_, ?_⟩
  · intro h
    show (if (native idx size).1 < size then some ((native idx size).2, [size])
      else (getDeviceTreeR native fuel (idx + 1) ((native idx size).1)).map
        (fun p => (p.1, size :: p.2))) = _
    rw [if_pos h]
  · intro h
    by_cases hlt : (native idx size).1 < size
    · exact hlt
    · exfalso
      replace h : (if (native idx size).1 < size then some ((native idx size).2, [size])
          else (getDeviceTreeR native fuel (idx + 1) ((native idx size).1)).map
            (fun p => (p.1, size :: p.2))) = some (doc, [size]) := h
      rw [if_neg hlt] at h
      cases hrec : getDeviceTreeR native fuel (idx + 1) ((native idx size).1) with
      | none => rw [hrec] at h; simp at h
      | some q =>
        rw [hrec] at h
        replace h : some (q.1, size :: q.2) = some (doc, [size]) := h
        have h2 := Option.some_injective _ h
        have h3 : size :: q.2 = [size] := congrArg Prod.snd h2
        have h4 : q.2 = [] := by injection h3
        exact getDeviceTreeR_trace_ne_nil native fuel (idx + 1)
          ((native idx size).1) q hrec h4
  · intro he hlt
    have hstep1 : getDeviceTreeR native (fuel + 2) idx size =
        (getDeviceTreeR native (fuel + 1) (idx + 1) size).map
          (fun p => (p.1, size :: p.2)) := by
      show (if (native idx size).1 < size then some ((native idx size).2, [size])
        else (getDeviceTreeR native (fuel + 1) (idx + 1) ((native idx size).1)).map
          (fun p => (p.1, size :: p.2))) = _
      rw [if_neg (by omega), he]
    have hstep2 : getDeviceTreeR native (fuel + 1) (idx + 1) size =
        some ((native (idx + 1) size).2, [size]) := by
      show (if (native (idx + 1) size).1 < size then
          some ((native (idx + 1) size).2, [size])
        else (getDeviceTreeR native fuel (idx + 2) ((native (idx + 1) size).1)).map
          (fun p => (p.1, size :: p.2))) = _
      rw [if_pos hlt]
    rw [hstep1, hstep2]
    rfl

/-- C5 witness: applying the amended theorem to the equal-once stub at
capacity 4 gives one retry at the same capacity, and to a one-call stub
of reported size 3 below capacity 4 gives first-call success. -/
theorem c5_device_tree_success_iff_witness :
    (stubEqOnce 0 4).1 = 4 ∧ (stubEqOnce 1 4).1 < 4 ∧
    getDeviceTreeR stubEqOnce (0 + 2) 0 4 = some ((stubEqOnce 1 4).2, [4, 4]) ∧
    getDeviceTreeR stubEqOnce (0 + 1) 1 4 = some ((stubEqOnce 1 4).2, [4]) :=
  ⟨rfl, by decide,
   (c5_device_tree_success_iff stubEqOnce 0 0 4 "").2.2 rfl (by decide),
   (c5_device_tree_success_iff stubEqOnce 0 1 4 "").1 (by decide)⟩

/-- C6: set_read_data_format returns exactly one Data descriptor per
field of a valid format, in the declared field order (each descriptor
matches its field), and read_data invokes the native read entry point
with the node handle, the timeout, and the arg raw address of each
descriptor, in exactly the order and count of the descriptor
sequence. -/
theorem c6_read_data_args_in_format_order (self : Node) (fmt : List FmtField)
    (base : Nat) (timeout : Int) (hvalid : ∀ f ∈ fmt, fieldValid f) :
    ∃ ds, (self.setReadDataFormat fmt base).result = .ok ds ∧
      List.Forall₂ dataMatchesField ds fmt ∧
      ds.length = fmt.length ∧
      self.readData timeout ds =
        { handle := self.handle, timeout := timeout, args := ds.map Data.argAddr } ∧
      (self.readData timeout ds).args.length = fmt.length := by
  obtain ⟨ds, b2, hok, hmat⟩ := allocDataList_ok fmt base hvalid
  refine ⟨ds, ?_, hmat, hmat.length_eq, rfl, ?_⟩
  · unfold Node.setReadDataFormat
    dsimp only
    rw [hok]
  · show (ds.map Data.argAddr).length = fmt.length
    rw [List.length_map]
    exact hmat.length_eq

/-- C6 witness: a waveform plus timestamp format on a concrete node. -/
theorem c6_read_data_args_in_format_order_witness :
    (∀ f ∈ [FmtField.mk "WAVEFORM" "U16" 2 [2, 3], FmtField.mk "TS" "U64" 0 []],
      fieldValid f) ∧
    ∃ ds, ((Node.mk 7 none).setReadDataFormat
        [FmtField.mk "WAVEFORM" "U16" 2 [2, 3], FmtField.mk "TS" "U64" 0 []] 0).result =
        .ok ds ∧
      List.Forall₂ dataMatchesField ds
        [FmtField.mk "WAVEFORM" "U16" 2 [2, 3], FmtField.mk "TS" "U64" 0 []] ∧
      ds.length =
        ([FmtField.mk "WAVEFORM" "U16" 2 [2, 3], FmtField.mk "TS" "U64" 0 []]).length ∧
      (Node.mk 7 none).readData 100 ds =
        { handle := (Node.mk 7 none).handle, timeout := 100,
          args := ds.map Data.argAddr } ∧
      ((Node.mk 7 none).readData 100 ds).args.length =
        ([FmtField.mk "WAVEFORM" "U16" 2 [2, 3], FmtField.mk "TS" "U64" 0 []]).length :=
  ⟨by decide,
   c6_read_data_args_in_format_order (Node.mk 7 none)
     [FmtField.mk "WAVEFORM" "U16" 2 [2, 3], FmtField.mk "TS" "U64" 0 []] 0 100
     (by decide)⟩

/-- C7: calling through the memoization layer twice with the same key
returns a logically equal result and leaves the cache state, hence the
native call count, untouched on the second call; instantiated for the
memoized get_child_nodes keyed by node, method and path.  The same
cachedCall wrapper is what get_parent_node, get_node, get_path and
get_node_properties go through. -/
theorem c7_cache_idempotent (compute : Unit → Option (List Node × List Nat))
    (k : NodeCacheKey)
    (st : CacheState NodeCacheKey (Option (List Node × List Nat)))
    (native : Option String → Nat → Nat × List Nat) (fuel : Nat) (self : Node)
    (path : Option String) :
    cachedCall compute k ((cachedCall compute k st).2) = cachedCall compute k st ∧
    ((cachedCall compute k ((cachedCall compute k st).2)).2).nativeCalls =
      ((cachedCall compute k st).2).nativeCalls ∧
    getChildNodesCached native fuel self path
        ((getChildNodesCached native fuel self path st).2) =
      getChildNodesCached native fuel self path st :=
  ⟨cachedCall_idem compute k st,
   congrArg (fun p => p.2.nativeCalls) (cachedCall_idem compute k st),
   cachedCall_idem (fun _ => getChildNodesR native self path fuel initialChildSize)
     (self.handle, "get_child_nodes", path) st⟩

/-- C8: indexing with a string s resolves get_node at the path /s;
attribute access with a non-dunder name s does the same; iterating over
a node yields exactly the nodes of get_child_nodes with path None, in
order. -/
theorem c8_navigation_sugar (resolve : Nat → Option String → Nat) (self : Node)
    (s : String) (native : Option String → Nat → Nat × List Nat) (fuel : Nat)
    (hs : isDunder s = false) :
    self.getAttrSugar resolve s = some (self.getNodeVia resolve (some ("/" ++ s))) ∧
    self.getItem resolve s = self.getNodeVia resolve (some ("/" ++ s)) ∧
    self.iterNodes native fuel =
      (getChildNodesR native self none fuel initialChildSize).map (fun p => p.1) := by
  refine ⟨?_, rfl, rfl⟩
  unfold Node.getAttrSugar
  rw [hs]
  rfl

/-- C8 witness: attribute access and indexing with the name par on a
concrete node. -/
theorem c8_navigation_sugar_witness :
    isDunder "par" = false ∧
    (Node.mk 0 none).getAttrSugar (fun h _ => h + 1) "par" =
      some ((Node.mk 0 none).getNodeVia (fun h _ => h + 1) (some ("/" ++ "par"))) ∧
    (Node.mk 0 none).getItem (fun h _ => h + 1) "par" =
      (Node.mk 0 none).getNodeVia (fun h _ => h + 1) (some ("/" ++ "par")) ∧
    (Node.mk 0 none).iterNodes (fun _ _ => (1, [4])) 1 =
      (getChildNodesR (fun _ _ => (1, [4])) (Node.mk 0 none) none 1
        initialChildSize).map (fun p => p.1) :=
  ⟨by decide,
   (c8_navigation_sugar (fun h _ => h + 1) (Node.mk 0 none) "par"
     (fun _ _ => (1, [4])) 1 (by decide)).1,
   (c8_navigation_sugar (fun h _ => h + 1) (Node.mk 0 none) "par"
     (fun _ _ => (1, [4])) 1 (by decide)).2.1,
   (c8_navigation_sugar (fun h _ => h + 1) (Node.mk 0 none) "par"
     (fun _ _ => (1, [4])) 1 (by decide)).2.2⟩

/-- C9: a child generated from a well-formed node carries as root_node
the tree root itself (a node whose own root_node is None), never a
chained intermediate; such a child is never marked opened and its
destructor never triggers the native close; the same holds for every
node in a get_child_nodes result; and in general a node is marked
opened at construction exactly when built with root_node None, and the
destructor closes exactly the nodes marked opened. -/
theorem c9_root_reference_invariant (self : Node) (h : Nat) (n : Node)
    (native : Option String → Nat → Nat × List Nat) (path : Option String)
    (fuel sz : Nat) (res : List Node × List Nat) (c : Node)
    (hwf : self.wf)
    (hrun : getChildNodesR native self path fuel sz = some res)
    (hc : c ∈ res.1) :
    (∃ r, (self.generateChild h).rootNode = some r ∧ r.rootNode = none) ∧
    (self.generateChild h).openedAtInit = false ∧
    (self.generateChild h).delCloses = false ∧
    (self.generateChild h).wf ∧
    (n.openedAtInit = true ↔ n.rootNode = none) ∧
    n.delCloses = n.openedAtInit ∧
    (∃ r, c.rootNode = some r ∧ r.rootNode = none) := by
  obtain ⟨r, hr, hr0⟩ := generateChild_root self h hwf
  refine ⟨⟨r, hr, hr0⟩, ?_, ?_, Or.inr ⟨r, hr, hr0⟩, ?_, rfl, ?_⟩
  · unfold Node.openedAtInit
    rw [hr]
    rfl
  · unfold Node.delCloses Node.openedAtInit
    rw [hr]
    rfl
  · unfold Node.openedAtInit
    exact Option.isNone_iff_eq_none
  · obtain ⟨h2, rfl⟩ := getChildNodesR_mem native self path fuel sz res hrun c hc
    exact generateChild_root self h2 hwf

/-- C9 witness: a concrete root with a concrete child enumeration. -/
theorem c9_root_reference_invariant_witness :
    (Node.mk 3 none).wf ∧
    getChildNodesR (fun _ _ => (1, [7])) (Node.mk 3 none) none 1 1 =
      some ([(Node.mk 3 none).generateChild 7], [1]) ∧
    (Node.mk 3 none).generateChild 7 ∈ [(Node.mk 3 none).generateChild 7] ∧
    ((∃ r, ((Node.mk 3 none).generateChild 9).rootNode = some r ∧ r.rootNode = none) ∧
      ((Node.mk 3 none).generateChild 9).openedAtInit = false ∧
      ((Node.mk 3 none).generateChild 9).delCloses = false ∧
      ((Node.mk 3 none).generateChild 9).wf ∧
      ((Node.mk 3 none).openedAtInit = true ↔ (Node.mk 3 none).rootNode = none) ∧
      (Node.mk 3 none).delCloses = (Node.mk 3 none).openedAtInit ∧
      (∃ r, ((Node.mk 3 none).generateChild 7).rootNode = some r ∧
        r.rootNode = none)) :=
  ⟨Or.inl rfl, rfl, List.mem_singleton.mpr rfl,
   c9_root_reference_invariant (Node.mk 3 none) 9 (Node.mk 3 none)
     (fun _ _ => (1, [7])) none 1 1 ([(Node.mk 3 none).generateChild 7], [1])
     ((Node.mk 3 none).generateChild 7) (Or.inl rfl) rfl
     (List.mem_singleton.mpr rfl)⟩

/-- C10: for a format list containing a malformed field,
set_read_data_format still hands the format (and the node handle) to
the native set-read-data-format entry point before the validation error
is raised, so the native endpoint format has already been changed when
the error surfaces, and no descriptors are returned to the caller. -/
theorem c10_native_call_precedes_validation (self : Node) (fmt : List FmtField)
    (base : Nat) (hbad : ∃ f ∈ fmt, fieldInvalid f) :
    (self.setReadDataFormat fmt base).nativeHandle = self.handle ∧
    (self.setReadDataFormat fmt base).nativeFmt = fmt ∧
    ∃ e, (self.setReadDataFormat fmt base).result = .error e := by
  refine ⟨rfl, rfl, ?_⟩
  obtain ⟨e, he⟩ := allocDataList_error fmt base hbad
  refine ⟨e, ?_⟩
  unfold Node.setReadDataFormat
  dsimp only
  rw [he]

/-- C10 witness: a format whose second field has an unknown type tag. -/
theorem c10_native_call_precedes_validation_witness :
    (∃ f ∈ [FmtField.mk "A" "U8" 0 [], FmtField.mk "B" "XX" 0 []], fieldInvalid f) ∧
    ((Node.mk 2 none).setReadDataFormat
        [FmtField.mk "A" "U8" 0 [], FmtField.mk "B" "XX" 0 []] 0).nativeHandle =
      (Node.mk 2 none).handle ∧
    ((Node.mk 2 none).setReadDataFormat
        [FmtField.mk "A" "U8" 0 [], FmtField.mk "B" "XX" 0 []] 0).nativeFmt =
      [FmtField.mk "A" "U8" 0 [], FmtField.mk "B" "XX" 0 []] ∧
    ∃ e, ((Node.mk 2 none).setReadDataFormat
        [FmtField.mk "A" "U8" 0 [], FmtField.mk "B" "XX" 0 []] 0).result = .error e :=
  ⟨by decide,
   c10_native_call_precedes_validation (Node.mk 2 none)
     [FmtField.mk "A" "U8" 0 [], FmtField.mk "B" "XX" 0 []] 0 (by decide)⟩
